import Mathlib

/-!
Verification of the Agnost analytics SDK (TypeScript and Go implementations)
against its natural-language specification.  The definitions below are shallow
embeddings of the source functions; theorems settle the spec claims.
-/

set_option maxRecDepth 4096

namespace Agnost

/-! ## A model of JavaScript runtime values

Used by the TypeScript-side embeddings (mcp-utils.ts, analytics-client.ts,
event-recorder.ts, session-manager.ts). -/

inductive JsValue where
  | null
  | undefined
  | bool (b : Bool)
  | num (n : Int)
  | str (s : String)
  | arr (elems : List JsValue)
  | obj (fields : List (String × JsValue))
  | errObj (message : String)
deriving Repr

/-- JavaScript truthiness. -/
def truthy : JsValue → Bool
  | .null => false
  | .undefined => false
  | .bool b => b
  | .num n => n != 0
  | .str s => !s.isEmpty
  | .arr _ => true
  | .obj _ => true
  | .errObj _ => true

/-- Look up a key in an association list of object fields. -/
def fieldLookup (k : String) : List (String × JsValue) → Option JsValue
  | [] => none
  | kv :: rest => if kv.1 = k then some kv.2 else fieldLookup k rest

/-- Property access `v[k]`; yields undefined when absent or not an object.
Arrays expose `length` and their index properties; an Error exposes
`message`. -/
def getField (v : JsValue) (k : String) : JsValue :=
  match v with
  | .obj fs =>
    match fieldLookup k fs with
    | some w => w
    | none => .undefined
  | .arr xs =>
    if k = "length" then .num xs.length
    else
      match k.toNat? with
      | some i => match xs.get? i with
        | some w => w
        | none => .undefined
      | none => .undefined
  | .errObj m => if k = "message" then .str m else .undefined
  | _ => .undefined

/-- `hasattr` from mcp-utils.ts:
`obj && typeof obj === "object" && prop in obj`.
`typeof` is "object" for objects, arrays, Error instances (and null, which the
truthiness test already excludes). -/
def hasattr (v : JsValue) (p : String) : Bool :=
  match v with
  | .obj fs => (fieldLookup p fs).isSome
  | .arr xs =>
    p = "length" ||
      (match p.toNat? with
       | some i => i < xs.length
       | none => false)
  | .errObj _ => p = "message" || p = "stack"
  | _ => false

mutual

/-- JavaScript `String(v)` coercion. -/
def jsToString : JsValue → String
  | .null => "null"
  | .undefined => "undefined"
  | .bool b => if b then "true" else "false"
  | .num n => toString n
  | .str s => s
  | .arr xs => jsArrToString xs
  | .obj _ => "[object Object]"
  | .errObj m => "Error: " ++ m
termination_by structural v => v

/-- Array-to-string coercion: elements joined with commas, null and undefined
elements rendered empty. -/
def jsArrToString : List JsValue → String
  | [] => ""
  | [.null] => ""
  | [.undefined] => ""
  | [x] => jsToString x
  | .null :: xs => "," ++ jsArrToString xs
  | .undefined :: xs => "," ++ jsArrToString xs
  | x :: xs => jsToString x ++ "," ++ jsArrToString xs
termination_by structural v => v

end

mutual

/-- `JSON.stringify` (total model; the embeddings that guard a stringify call
with try/catch therefore never take the catch arm). -/
def jsonStringify : JsValue → String
  | .null => "null"
  | .undefined => "null"
  | .bool b => if b then "true" else "false"
  | .num n => toString n
  | .str s => "\"" ++ s ++ "\""
  | .arr xs => "[" ++ jsonStringifyList xs ++ "]"
  | .obj fs => "\x7b" ++ jsonStringifyFields fs ++ "\x7d"
  | .errObj _ => "\x7b\x7d"
termination_by structural v => v

def jsonStringifyList : List JsValue → String
  | [] => ""
  | [x] => jsonStringify x
  | x :: xs => jsonStringify x ++ "," ++ jsonStringifyList xs
termination_by structural v => v

def jsonStringifyFields : List (String × JsValue) → String
  | [] => ""
  | [kv] => "\"" ++ kv.1 ++ "\":" ++ jsonStringify kv.2
  | kv :: rest => "\"" ++ kv.1 ++ "\":" ++ jsonStringify kv.2 ++ "," ++ jsonStringifyFields rest
termination_by structural v => v

end

/-- Strict equality of a value against a string literal (`v === "s"`). -/
def jsEqStr (v : JsValue) (s : String) : Bool :=
  match v with
  | .str t => t = s
  | _ => false

/-- `a || b` on values: the left operand when truthy, otherwise the right. -/
def jsOr (a b : JsValue) : JsValue :=
  if truthy a then a else b

/-! ## mcp-utils.ts : isMcpErrorResponse and filterSensitiveArgs -/

/-- The `for (const contentItem of content)` loop shared by both branches of
`isMcpErrorResponse`: the first item carrying a `text` property yields that
text; an item with `type`/`content` properties and `type === "text"` yields
its content; otherwise the loop continues. -/
def contentLoop : List JsValue → Option JsValue
  | [] => none
  | ci :: rest =>
    if hasattr ci "text" then some (.str (jsToString (getField ci "text")))
    else if hasattr ci "type" && hasattr ci "content" then
      if jsEqStr (getField ci "type") "text" then
        some (.str (jsToString (getField ci "content")))
      else contentLoop rest
    else contentLoop rest

/-- Message produced by the surrounding try/catch of `isMcpErrorResponse` when
iterating a truthy non-iterable `content` value throws a TypeError.  The exact
engine wording is environment specific; a fixed marker stands in for it. -/
def iterTypeErrorMsg : String := "Error checking response: content is not iterable"

/-- The `response.root` branch of `isMcpErrorResponse`.  Returns `some` when
the branch returns, `none` when control falls through to the direct checks. -/
def mcpRootBranch (response : JsValue) : Option (Bool × JsValue) :=
  if hasattr response "root" then
    let result := getField response "root"
    if hasattr result "isError" && truthy (getField result "isError") then
      if hasattr result "content" && truthy (getField result "content") then
        match getField result "content" with
        | .arr items =>
          match contentLoop items with
          | some m => some (true, m)
          | none =>
            if !items.isEmpty then
              some (true, .str (jsToString (items.headD .undefined)))
            else some (true, .str "Unknown error")
        | .str s =>
          -- for..of over a string iterates characters; no character has a
          -- `text` property, so the loop finds nothing and the first
          -- character is stringified (a truthy string is non-empty).
          match s.data.head? with
          | some c => some (true, .str (String.mk [c]))
          | none => some (true, .str "Unknown error")
        | _ =>
          -- truthy but not iterable (plain object, number, true, Error):
          -- for..of throws; the outer catch returns [false, message].
          some (false, .str iterTypeErrorMsg)
      else some (true, .str "Unknown error")
    else none
  else none

/-- The direct-properties branch: `response.isError` truthy. -/
def mcpDirectBranch (response : JsValue) : Bool × JsValue :=
  let fallback : JsValue :=
    jsOr (getField response "message") (jsOr (getField response "error") (.str "Unknown error"))
  match getField response "content" with
  | .arr items =>
    match contentLoop items with
    | some m => (true, m)
    | none =>
      match items.headD .undefined, items.isEmpty with
      | _, true => (true, fallback)
      | .str s, false => (true, .str s)
      | .obj fs, false => (true, .str (jsonStringify (.obj fs)))
      | .arr xs, false => (true, .str (jsonStringify (.arr xs)))
      | .null, false => (true, .str (jsonStringify .null))
      | .errObj m, false => (true, .str (jsonStringify (.errObj m)))
      | _, false => (true, fallback)
  | _ => (true, fallback)

/-- `isMcpErrorResponse` from mcp-utils.ts.  Returns the pair
`[isError, errorMessage]`; the message component is kept as a value because
the `message || error` fallback can pass a non-string through. -/
def isMcpErrorResponse (response : JsValue) : Bool × JsValue :=
  match mcpRootBranch response with
  | some r => r
  | none =>
    if hasattr response "isError" && truthy (getField response "isError") then
      mcpDirectBranch response
    else
      match response with
      | .errObj m => (true, .str m)
      | _ => (false, .str "")

/-- The key filter applied inside `filterSensitiveArgs`:
`key !== "org_id" && key !== "orgId"`. -/
def stripOrgFields (fs : List (String × JsValue)) : List (String × JsValue) :=
  fs.filter (fun kv => !(kv.1 = "org_id") && !(kv.1 = "orgId"))

/-- Own enumerable keys of a JS array as seen by `for..in`: the index strings
paired with the elements. -/
def enumFields (xs : List JsValue) : List (String × JsValue) :=
  xs.enum.map (fun p => (toString p.1, p.2))

/-- `filterSensitiveArgs` from mcp-utils.ts.  For each argument with
`typeof arg === "object" && arg !== null` a fresh object is built from the
keys surviving the filter (for an array, `for..in` walks its index keys, so
the array is rebuilt as an index-keyed object; an Error has no own enumerable
keys).  Other arguments pass through unchanged. -/
def filterSensitiveArgs (args : List JsValue) : List JsValue :=
  args.map (fun arg =>
    match arg with
    | .obj fs => .obj (stripOrgFields fs)
    | .arr xs => .obj (stripOrgFields (enumFields xs))
    | .errObj _ => .obj []
    | v => v)

/-- Whether an object value carries a given key. -/
def hasKey (v : JsValue) (k : String) : Bool :=
  match v with
  | .obj fs => (fieldLookup k fs).isSome
  | _ => false

/-! ## analytics-client.ts : wrapToolCallHandler -/

/-- Outcome of invoking the original handler: a normal return or a thrown
exception value. -/
inductive HandlerOutcome where
  | ok (result : JsValue)
  | thrown (e : JsValue)
deriving Repr

/-- How the wrapped handler completes towards its caller. -/
inductive WrapOutcome where
  | ret (v : JsValue)
  | rethrow (e : JsValue)
deriving Repr

/-- The arguments handed to `recordEvent` by an instrumentation wrapper. -/
structure EventRec where
  primitiveType : String
  primitiveName : String
  args : JsValue
  success : Bool
  analyticsResult : JsValue
deriving Repr

/-- One observable action of a wrapper run, in execution order: the telemetry
submission (the awaited `recordEvent` in the finally block) and the completion
towards the caller. -/
inductive WrapAction where
  | record (ev : EventRec)
  | finish (o : WrapOutcome)
deriving Repr

/-- `error instanceof Error ? error.message : String(error)`. -/
def errMsg (e : JsValue) : String :=
  match e with
  | .errObj m => m
  | v => jsToString v

/-- `request.params?.name || "unknown_tool"` (the recorded name is then
`String(toolName)`). -/
def wrapToolName (request : JsValue) : String :=
  jsToString (jsOr (getField (getField request "params") "name") (.str "unknown_tool"))

/-- `request.params?.arguments || {}` -- recorded WITHOUT any filtering. -/
def wrapArgs (request : JsValue) : JsValue :=
  jsOr (getField (getField request "params") "arguments") (.obj [])

/-- `wrapToolCallHandler`: the wrapped handler as a trace of observable
actions.  On a normal return the result is classified by
`isMcpErrorResponse`; on a throw `success` is false and the extracted message
becomes the analytics result; in both cases the event is recorded (awaited in
the finally block) before the wrapped handler completes, and a thrown
exception is re-thrown unchanged after the submission. -/
def wrapToolCallHandlerRun (handler : JsValue → HandlerOutcome) (request : JsValue) :
    List WrapAction :=
  let name := wrapToolName request
  let args := wrapArgs request
  match handler request with
  | .ok r =>
    let err := isMcpErrorResponse r
    let ev : EventRec :=
      { primitiveType := "tool", primitiveName := name, args := args,
        success := !err.1,
        analyticsResult := if err.1 then err.2 else r }
    [.record ev, .finish (.ret r)]
  | .thrown e =>
    let ev : EventRec :=
      { primitiveType := "tool", primitiveName := name, args := args,
        success := false, analyticsResult := .str (errMsg e) }
    [.record ev, .finish (.rethrow e)]

/-- The event a wrapper run submits (the trace always contains exactly one). -/
def wrapRecorded (tr : List WrapAction) : Option EventRec :=
  match tr with
  | .record ev :: _ => some ev
  | _ => none

/-! ## event-recorder.ts : createWrapper

The generic `wrap` path: times the call, classifies a throw as failure, and
records `filterSensitiveArgs(args)`; the thrown error propagates after the
finally block, and `result` stays null on a throw. -/

def createWrapperRun (primitiveType primitiveName : String) (args : List JsValue)
    (outcome : HandlerOutcome) : List WrapAction :=
  match outcome with
  | .ok r =>
    let ev : EventRec :=
      { primitiveType := primitiveType, primitiveName := primitiveName,
        args := .arr (filterSensitiveArgs args), success := true,
        analyticsResult := r }
    [.record ev, .finish (.ret r)]
  | .thrown e =>
    let ev : EventRec :=
      { primitiveType := primitiveType, primitiveName := primitiveName,
        args := .arr (filterSensitiveArgs args), success := false,
        analyticsResult := .null }
    [.record ev, .finish (.rethrow e)]

/-! ## event-recorder.ts (TypeScript) and analytics.go (Go) : payload privacy -/

/-- The configuration fields consulted by the event recorders. -/
structure PrivacyConfig where
  disableInput : Bool
  disableOutput : Bool
deriving Repr

/-- The wire fields of an event payload that depend on args/result. -/
structure EventWire where
  args : String
  result : String
deriving Repr

/-- Payload construction in `EventRecorder.recordEvent` (event-recorder.ts):
`sendArgs`/`sendResult` are nulled when disabled; a string result passes
through, anything else is stringified; `args` is stringified unless null. -/
def tsEventWire (cfg : PrivacyConfig) (args result : JsValue) : EventWire :=
  let sendArgs := if cfg.disableInput then JsValue.null else args
  let sendResult := if cfg.disableOutput then JsValue.null else result
  let serializedResult :=
    match sendResult with
    | .null => ""
    | .undefined => ""
    | .str s => s
    | v => jsonStringify v
  let serializedArgs :=
    match sendArgs with
    | .null => ""
    | v => jsonStringify v
  { args := serializedArgs, result := serializedResult }

/-- Payload construction in `AgnostAnalytics.RecordEvent` (analytics.go):
`argsJSON`/`resultJSON` stay empty unless the corresponding disable flag is
off and the value is non-nil and marshals cleanly (marshalling is modelled as
total). -/
def goEventWire (disableInput disableOutput : Bool) (args result : JsValue) : EventWire :=
  let argsJSON :=
    if !disableInput then
      match args with
      | .null => ""
      | v => jsonStringify v
    else ""
  let resultJSON :=
    if !disableOutput then
      match result with
      | .null => ""
      | v => jsonStringify v
    else ""
  { args := argsJSON, result := resultJSON }

/-! ## session-manager.ts : startSession (TypeScript)

`startSession` on a cache miss generates an id, assembles the session record
and awaits `httpClient.sendSession`; axios throws on network errors and on
any non-2xx status, so a delivery failure lands in the catch block, which
logs a warning and returns the empty string WITHOUT writing the cache.  Only
after a successful send is the id cached. -/

/-- Association-list lookup in the `sessionIds` record. -/
def sessLookup (k : String) : List (String × String) → Option String
  | [] => none
  | kv :: rest => if kv.1 = k then some kv.2 else sessLookup k rest

/-- Result of one `startSession` call: the returned id, the updated
`sessionIds` cache, and whether a warning was logged. -/
structure StartSessionResult where
  returned : String
  cache : List (String × String)
  warned : Bool
deriving Repr

/-- `SessionManager.startSession` with `returnDummySession = false`;
`sendOk` is the outcome of the awaited `sendSession` (false covers both a
network error and a non-2xx response, which axios raises alike). -/
def tsStartSession (cache : List (String × String)) (key newId : String)
    (sendOk : Bool) : StartSessionResult :=
  match sessLookup key cache with
  | some sid => { returned := sid, cache := cache, warned := false }
  | none =>
    if sendOk then
      { returned := newId, cache := (key, newId) :: cache, warned := false }
    else
      { returned := "", cache := cache, warned := true }

/-! ## Go session manager (GetOrCreateSession / createSession) -/

/-- Outcome of the collector call in Go `createSession`: a 200/201 response,
any other status, or a transport error from `httpClient.Do`. -/
inductive GoHttp where
  | ok
  | non2xx
  | netErr
deriving Repr, DecidableEq

/-- Go `createSession`: a non-2xx status logs a warning and still returns the
locally generated id; a transport error propagates as an error. -/
def goCreateSession (newId : String) (o : GoHttp) : Except String (String × Bool) :=
  match o with
  | .ok => .ok (newId, false)
  | .non2xx => .ok (newId, true)
  | .netErr => .error "failed to create session"

/-- Go `GetOrCreateSession` run to completion by a single caller: cache hit
returns the cached id; otherwise `createSession` runs and only a successful
return is stored. -/
def goGetOrCreateSession (sessions : List (String × String)) (key newId : String)
    (o : GoHttp) : Except String (String × List (String × String) × Bool) :=
  match sessLookup key sessions with
  | some sid => .ok (sid, sessions, false)
  | none =>
    match goCreateSession newId o with
    | .error e => .error e
    | .ok (sid, warned) => .ok (sid, (key, sid) :: sessions, warned)

/-! ## session-manager.ts : identifyUser -/

/-- Behavior of the user-supplied identify function: resolve to a value or
throw/reject. -/
inductive IdentifyOutcome where
  | returns (v : JsValue)
  | throws (e : JsValue)
deriving Repr

/-- Result of one `identifyUser` call: the identity handed to the session
payload (null when anonymous), the updated `cachedUser` slot
(`none` models the undefined slot), and whether a warning was logged. -/
structure IdentifyResult where
  identity : JsValue
  cachedUser : Option JsValue
  warned : Bool
deriving Repr

/-- `SessionManager.identifyUser`: no function yields null; a filled cache is
returned as-is; a truthy result lacking a truthy `userId` is downgraded to
null with a warning; an exception is caught, logged, and downgraded to null.
No failure ever propagates (the embedding is a total function). -/
def identifyUser (hasFn : Bool) (cached : Option JsValue)
    (outcome : IdentifyOutcome) : IdentifyResult :=
  if !hasFn then { identity := .null, cachedUser := cached, warned := false }
  else
    match cached with
    | some c => { identity := c, cachedUser := some c, warned := false }
    | none =>
      match outcome with
      | .throws _ => { identity := .null, cachedUser := some .null, warned := true }
      | .returns v =>
        if truthy v && !truthy (getField v "userId") then
          { identity := .null, cachedUser := some .null, warned := true }
        else
          { identity := v, cachedUser := some v, warned := false }

/-- The invariant the spec states for attached identities: a truthy identity
value always carries a truthy `userId` (for a string field, truthy means
non-empty). -/
def identityValid (v : JsValue) : Bool :=
  !truthy v || truthy (getField v "userId")

/-- The `cachedUser` slot invariant: empty, or holding a valid identity. -/
def cachedUserValid : Option JsValue → Bool
  | none => true
  | some c => identityValid c

/-! ## Interleaving semantics of concurrent Go GetOrCreateSession calls

Two goroutines call `GetOrCreateSession` for the same key.  The mutex makes
the cache read (`RLock` block) and the cache write (`Lock` block) atomic
steps, but `createSession` -- which issues the HTTP creation request -- runs
between them outside any lock.  Each thread is a three-step program:
check cache, issue creation request, store id. -/

/-- Program counter of one caller: 0 = about to check the cache, 1 = about to
issue the creation request, 2 = about to store, 3 = done. -/
structure SfThread where
  pc : Nat
  localId : String
  result : Option String
deriving Repr, DecidableEq

/-- Shared state: the `sessions` map, both callers, and the number of
creation requests issued to the collector. -/
structure SfState where
  cache : List (String × String)
  t0 : SfThread
  t1 : SfThread
  requests : Nat
deriving Repr, DecidableEq

/-- One step of a single caller (`createSession` is taken as succeeding and
returning the locally generated id, as it does on 2xx and non-2xx alike). -/
def sfThreadStep (key : String) (cache : List (String × String)) (t : SfThread)
    (requests : Nat) : SfThread × List (String × String) × Nat :=
  match t.pc with
  | 0 =>
    match sessLookup key cache with
    | some sid => ({ t with pc := 3, result := some sid }, cache, requests)
    | none => ({ t with pc := 1 }, cache, requests)
  | 1 => ({ t with pc := 2 }, cache, requests + 1)
  | 2 => ({ t with pc := 3, result := some t.localId }, (key, t.localId) :: cache, requests)
  | _ => (t, cache, requests)

/-- Scheduler step: run one step of the named caller. -/
def sfStep (key : String) (s : SfState) (who : Bool) : SfState :=
  if who then
    let (t, c, r) := sfThreadStep key s.cache s.t1 s.requests
    { s with t1 := t, cache := c, requests := r }
  else
    let (t, c, r) := sfThreadStep key s.cache s.t0 s.requests
    { s with t0 := t, cache := c, requests := r }

/-- Run a schedule (a list of caller choices) from a state. -/
def sfRun (key : String) (s : SfState) : List Bool → SfState
  | [] => s
  | w :: ws => sfRun key (sfStep key s w) ws

/-- Initial state: empty cache, both callers at the cache check, with the
distinct ids their `generateSessionID` calls will produce. -/
def sfInit (id0 id1 : String) : SfState :=
  { cache := [], t0 := { pc := 0, localId := id0, result := none },
    t1 := { pc := 0, localId := id1, result := none }, requests := 0 }

/-! ## Go EventProcessor : sendEvent retry loop and flushBatch -/

/-- Outcome of one HTTP attempt inside `sendEvent`. -/
inductive Attempt where
  | success
  | failStatus
  | netErr
deriving Repr, DecidableEq

/-- The retry loop of `sendEvent`:
`for attempt := 0; attempt <= maxRetries; attempt++`, sleeping `retryDelay`
before every attempt except the first.  Returns the start time of every
attempt made (requests themselves modelled as instantaneous) and whether the
event was delivered.  Recursion is on the number of remaining iterations. -/
def goSendEventAux (retryDelay : Nat) (oracle : Nat → Attempt) :
    Nat → Nat → Nat → List Nat × Bool
  | 0, _, _ => ([], false)
  | rem + 1, attempt, t =>
    let t2 := if attempt = 0 then t else t + retryDelay
    match oracle attempt with
    | .success => ([t2], true)
    | _ =>
      let rest := goSendEventAux retryDelay oracle rem (attempt + 1) t2
      (t2 :: rest.1, rest.2)

/-- `sendEvent` with a given `maxRetries` and `retryDelay`: the loop body
runs `maxRetries + 1` times at most. -/
def goSendEvent (maxRetries retryDelay : Nat) (oracle : Nat → Attempt) :
    List Nat × Bool :=
  goSendEventAux retryDelay oracle (maxRetries + 1) 0 0

/-- Result of `flushBatch` on one batch: per-event delivery outcomes, the
number of warnings logged for exhausted events, and the events put back for a
later attempt (the source never re-queues: a failed event is only logged). -/
structure FlushResult where
  delivered : List (String × Bool)
  warnings : Nat
  requeued : List String
deriving Repr, DecidableEq

/-- `flushBatch`: the batch is swapped out under the lock, then each event is
sent individually; a `sendEvent` failure is logged and the event dropped. -/
def goFlushBatch (maxRetries retryDelay : Nat)
    (oracle : String → Nat → Attempt) (batch : List String) : FlushResult :=
  let results := batch.map (fun ev => (ev, (goSendEvent maxRetries retryDelay (oracle ev)).2))
  { delivered := results,
    warnings := (results.filter (fun r => !r.2)).length,
    requeued := [] }

/-! ## request-queue.ts : RequestQueue

`enqueue` pushes and, when idle, synchronously starts `processQueue`, which
sets `isProcessing`, shifts the first item and suspends awaiting it; when an
in-flight request settles the worker moves to the next item or clears
`isProcessing`.  `flush` polls `while (isProcessing && queue.length > 0)`. -/

structure RQState where
  queue : List String
  isProcessing : Bool
  inflight : Option String
  completed : List String
deriving Repr, DecidableEq

/-- The synchronous prefix of `processQueue` (up to its first await): mark
processing and shift the head into flight.  With an empty queue it returns
at the early guard. -/
def rqStartProcessing (s : RQState) : RQState :=
  if s.isProcessing then s
  else
    match s.queue with
    | [] => s
    | r :: rest => { s with queue := rest, isProcessing := true, inflight := some r }

/-- `enqueue`: push the request, then start processing if idle. -/
def rqEnqueue (s : RQState) (r : String) : RQState :=
  rqStartProcessing { s with queue := s.queue ++ [r] }

/-- The awaited request settles: the worker records completion, then shifts
the next item or, with an empty queue, leaves the loop resetting
`isProcessing`. -/
def rqCompleteInflight (s : RQState) : RQState :=
  match s.inflight with
  | none => s
  | some r =>
    let s1 := { s with completed := s.completed ++ [r], inflight := none }
    match s1.queue with
    | [] => { s1 with isProcessing := false }
    | r2 :: rest => { s1 with queue := rest, inflight := some r2 }

/-- The guard of `flush`: the poll loop exits -- and `flush` returns -- as
soon as `isProcessing && queue.length > 0` is false. -/
def rqFlushReturnsNow (s : RQState) : Bool :=
  !(s.isProcessing && !s.queue.isEmpty)

/-! ## analytics-client.ts : AgnostAnalytics initialize / trackMcp

Servers are modelled by their handler table (`_requestHandlers`, keyed by
request type, the Bool recording the `_agnostWrapped` mark) plus the flags
the deferred installation strategies touch.  Server identity is a numeric
tag so the stored-server frame condition is expressible. -/

structure ServerM where
  hasHandlerMap : Bool
  handlers : List (String × Bool)
  registerToolAvailable : Bool
  connectHooked : Bool
  registerHooked : Bool
deriving Repr, DecidableEq

structure ClientState where
  initialized : Bool
  overrideApplied : Bool
  serverId : Option Nat
  orgId : String
  endpoint : String
deriving Repr, DecidableEq

/-- A fresh `AgnostAnalytics` instance. -/
def clientInit : ClientState :=
  { initialized := false, overrideApplied := false, serverId := none,
    orgId := "", endpoint := "" }

/-- `key.toString().includes(sub)`. -/
def strContains (s sub : String) : Bool :=
  (s.splitOn sub).length > 1

/-- The request types the fallback iteration of `overrideMcpServer` wraps. -/
def callToolKey (k : String) : Bool :=
  strContains k "CallTool" || strContains k "tools/call"

/-- Handler-table lookup. -/
def handlerLookup (k : String) : List (String × Bool) → Option Bool
  | [] => none
  | kv :: rest => if kv.1 = k then some kv.2 else handlerLookup k rest

/-- `wrapToolCallHandler` seen from the handler table: an already wrapped
handler is left untouched, otherwise the table entry is replaced by the
wrapped (marked) handler. -/
def markWrapped (k : String) (hs : List (String × Bool)) : List (String × Bool) :=
  hs.map (fun kv => if kv.1 = k then (kv.1, true) else kv)

/-- The body of `overrideMcpServer` past the `overrideApplied` guard: requires
a handler table, wraps the `tools/call` handler when present, otherwise wraps
every handler whose key mentions CallTool, failing when none matches. -/
def tsWrapServer (sv : ServerM) : Bool × ServerM :=
  if !sv.hasHandlerMap then (false, sv)
  else
    match handlerLookup "tools/call" sv.handlers with
    | some _ => (true, { sv with handlers := markWrapped "tools/call" sv.handlers })
    | none =>
      if sv.handlers.any (fun kv => callToolKey kv.1) then
        (true, { sv with handlers :=
          sv.handlers.map (fun kv => if callToolKey kv.1 then (kv.1, true) else kv) })
      else (false, sv)

/-- `overrideMcpServer`: a no-op returning true once the override was
applied; otherwise attempts the wrap and records success. -/
def tsOverrideMcpServer (st : ClientState) (sv : ServerM) :
    Bool × ClientState × ServerM :=
  if st.overrideApplied then (true, st, sv)
  else
    match tsWrapServer sv with
    | (true, sv2) => (true, { st with overrideApplied := true }, sv2)
    | (false, sv2) => (false, st, sv2)

/-- `AgnostAnalytics.initialize`: an initialized instance returns true at
once, before any validation; otherwise the inputs are validated (org id
non-blank, endpoint non-empty) and the components and stored fields are set
up. -/
def tsInitClient (st : ClientState) (sid : Nat) (orgId endpoint : String) :
    Bool × ClientState :=
  if st.initialized then (true, st)
  else if orgId.data.all (fun c => c.isWhitespace) || endpoint = "" then (false, st)
  else
    (true, { st with initialized := true, serverId := some sid,
                     orgId := orgId, endpoint := endpoint })

/-- `AgnostAnalytics.trackMcp`: initialize (a no-op when already
initialized), then try the override immediately; on failure install the
deferred strategies (connect hook, and the registerTool hook when the server
exposes registerTool) on the server passed to THIS call. -/
def tsTrackMcp (st : ClientState) (sid : Nat) (sv : ServerM)
    (orgId endpoint : String) : ClientState × ServerM :=
  let init := tsInitClient st sid orgId endpoint
  if !init.1 then (init.2, sv)
  else
    match tsOverrideMcpServer init.2 sv with
    | (true, st2, sv2) => (st2, sv2)
    | (false, st2, sv2) =>
      (st2, { sv2 with connectHooked := true,
                       registerHooked := sv2.registerToolAvailable })

/-! ## Helper lemmas -/

theorem fieldLookup_stripOrgFields (fs : List (String × JsValue)) :
    fieldLookup "org_id" (stripOrgFields fs) = none ∧
    fieldLookup "orgId" (stripOrgFields fs) = none := by
  induction fs with
  | nil => exact ⟨rfl, rfl⟩
  | cons kv rest ih =>
    by_cases h1 : kv.1 = "org_id"
    · simpa [stripOrgFields, h1] using ih
    · by_cases h2 : kv.1 = "orgId"
      · simpa [stripOrgFields, h1, h2] using ih
      · simp only [stripOrgFields, List.filter] at ih ⊢
        simp [h1, h2, fieldLookup, ih.1, ih.2]

theorem filterSensitiveArgs_no_org_keys (args : List JsValue) :
    (filterSensitiveArgs args).all
      (fun v => !hasKey v "org_id" && !hasKey v "orgId") = true := by
  induction args with
  | nil => rfl
  | cons a rest ih =>
    have hstrip := fun fs => fieldLookup_stripOrgFields fs
    cases a <;>
      simp_all [filterSensitiveArgs, hasKey, fieldLookup,
        (hstrip _).1, (hstrip _).2]

/-! ## Claim theorems -/

/-- C1 (code bug): session creation is NOT single-flight.  Two concurrent
Go `GetOrCreateSession` callers for the key k, interleaved so that both pass
the cache check before either stores, issue two creation requests to the
collector and observe two different session ids -- against the single-flight
requirement (the TypeScript `startSession` has the same unguarded window
between its cache check and its cache write). -/
theorem getOrCreateSession_not_single_flight :
    (sfRun "k" (sfInit "id0" "id1") [false, true, false, false, true, true]).requests = 2 ∧
    (sfRun "k" (sfInit "id0" "id1") [false, true, false, false, true, true]).t0.result
      = some "id0" ∧
    (sfRun "k" (sfInit "id0" "id1") [false, true, false, false, true, true]).t1.result
      = some "id1" := by
  decide

/-- C2 (confirmed): when the original handler throws, the wrapper submits an
event with success = false carrying the extracted error message, and only
then re-throws the identical exception value to the caller. -/
theorem wrapper_rethrows_after_submit (handler : JsValue → HandlerOutcome)
    (request e : JsValue) (h : handler request = .thrown e) :
    wrapToolCallHandlerRun handler request =
      [.record { primitiveType := "tool", primitiveName := wrapToolName request,
                 args := wrapArgs request, success := false,
                 analyticsResult := .str (errMsg e) },
       .finish (.rethrow e)] := by
  unfold wrapToolCallHandlerRun
  rw [h]

/-- Witness for C2 at a concrete throwing handler. -/
theorem wrapper_rethrows_after_submit_witness :
    wrapToolCallHandlerRun (fun _ => .thrown (.errObj "bad"))
      (.obj [("params", .obj [("name", .str "t")])]) =
      [.record { primitiveType := "tool", primitiveName := "t",
                 args := .obj [], success := false,
                 analyticsResult := .str "bad" },
       .finish (.rethrow (.errObj "bad"))] := by
  have h := wrapper_rethrows_after_submit (fun _ => .thrown (.errObj "bad"))
    (.obj [("params", .obj [("name", .str "t")])]) (.errObj "bad") rfl
  simpa [wrapToolName, wrapArgs, errMsg, jsToString, jsOr, getField,
    fieldLookup, truthy] using h

/-- C3 (confirmed): when the original handler returns normally, the wrapper
returns exactly the original value; when that value carries the isError flag
the recorded event has success = false and the extracted message, while the
caller still receives the unmodified value. -/
theorem wrapper_preserves_return (handler : JsValue → HandlerOutcome)
    (request r : JsValue) (h : handler request = .ok r) :
    wrapToolCallHandlerRun handler request =
      [.record { primitiveType := "tool", primitiveName := wrapToolName request,
                 args := wrapArgs request,
                 success := !(isMcpErrorResponse r).1,
                 analyticsResult :=
                   if (isMcpErrorResponse r).1 then (isMcpErrorResponse r).2 else r },
       .finish (.ret r)] := by
  unfold wrapToolCallHandlerRun
  rw [h]

/-- Witness for C3 at a handler returning an isError response: the caller
receives the flagged value unchanged while the event records failure with
the extracted message. -/
theorem wrapper_preserves_return_witness :
    wrapToolCallHandlerRun
      (fun _ => .ok (.obj [("isError", .bool true),
                           ("content", .arr [.obj [("text", .str "boom")]])]))
      (.obj [("params", .obj [("name", .str "t")])]) =
      [.record { primitiveType := "tool", primitiveName := "t",
                 args := .obj [], success := false,
                 analyticsResult := .str "boom" },
       .finish (.ret (.obj [("isError", .bool true),
                            ("content", .arr [.obj [("text", .str "boom")]])]))] := by
  have h := wrapper_preserves_return
    (fun _ => .ok (.obj [("isError", .bool true),
                         ("content", .arr [.obj [("text", .str "boom")]])]))
    (.obj [("params", .obj [("name", .str "t")])])
    (.obj [("isError", .bool true),
           ("content", .arr [.obj [("text", .str "boom")]])]) rfl
  have herr : isMcpErrorResponse (.obj [("isError", .bool true),
      ("content", .arr [.obj [("text", .str "boom")]])]) = (true, .str "boom") := rfl
  have hname : wrapToolName (.obj [("params", .obj [("name", .str "t")])]) = "t" := rfl
  have hargs : wrapArgs (.obj [("params", .obj [("name", .str "t")])]) = .obj [] := rfl
  rw [herr, hname, hargs] at h
  simpa using h

/-- C4 counterexample: in the TypeScript `startSession`, when `sendSession`
fails (axios throws on network errors and non-2xx alike) the locally
generated id id1 is neither returned nor cached under the key -- the call
returns the empty string, only logging a warning. -/
theorem startSession_failure_counterexample :
    ¬((tsStartSession [] "k" "id1" false).returned = "id1" ∧
      sessLookup "k" (tsStartSession [] "k" "id1" false).cache = some "id1") := by
  decide

/-- C4 (amended): only the Go implementation on a non-2xx response caches
and returns the locally generated id with a warning; a Go network error
propagates an error and caches nothing, and any TypeScript delivery failure
returns the empty string and caches nothing, warning only. -/
theorem sessionCreationFailure_policy (key newId : String) :
    goGetOrCreateSession [] key newId .non2xx = .ok (newId, [(key, newId)], true) ∧
    goGetOrCreateSession [] key newId .netErr = .error "failed to create session" ∧
    tsStartSession [] key newId false =
      { returned := "", cache := [], warned := true } :=
  ⟨rfl, rfl, rfl⟩

/-- C5 (confirmed): with disableInput set the delivered args field is the
empty string whatever the original argument value, and with disableOutput
set the delivered result field is empty, in both the TypeScript and the Go
event recorders. -/
theorem privacy_filtering (dIn dOut : Bool) (args result : JsValue) :
    (tsEventWire { disableInput := true, disableOutput := dOut } args result).args = "" ∧
    (tsEventWire { disableInput := dIn, disableOutput := true } args result).result = "" ∧
    (goEventWire true dOut args result).args = "" ∧
    (goEventWire dIn true args result).result = "" :=
  ⟨rfl, rfl, rfl, rfl⟩

/-- C6 (confirmed): with maxRetries = 2 and every attempt failing, exactly 3
attempts occur, started at times 0, d and d + d (consecutive attempts
separated by the retry delay d), the event is not delivered, and the flushed
batch drops it with one warning and re-queues nothing. -/
theorem retry_exhaustion (d : Nat) (oracle : Nat → Attempt) (ev : String)
    (h : ∀ n, oracle n ≠ .success) :
    goSendEvent 2 d oracle = ([0, d, d + d], false) ∧
    goFlushBatch 2 d (fun _ => oracle) [ev] =
      { delivered := [(ev, false)], warnings := 1, requeued := [] } := by
  have hsend : goSendEvent 2 d oracle = ([0, d, d + d], false) := by
    cases e0 : oracle 0 with
    | success => exact absurd e0 (h 0)
    | failStatus =>
      cases e1 : oracle 1 with
      | success => exact absurd e1 (h 1)
      | failStatus =>
        cases e2 : oracle 2 with
        | success => exact absurd e2 (h 2)
        | failStatus => simp [goSendEvent, goSendEventAux, e0, e1, e2]
        | netErr => simp [goSendEvent, goSendEventAux, e0, e1, e2]
      | netErr =>
        cases e2 : oracle 2 with
        | success => exact absurd e2 (h 2)
        | failStatus => simp [goSendEvent, goSendEventAux, e0, e1, e2]
        | netErr => simp [goSendEvent, goSendEventAux, e0, e1, e2]
    | netErr =>
      cases e1 : oracle 1 with
      | success => exact absurd e1 (h 1)
      | failStatus =>
        cases e2 : oracle 2 with
        | success => exact absurd e2 (h 2)
        | failStatus => simp [goSendEvent, goSendEventAux, e0, e1, e2]
        | netErr => simp [goSendEvent, goSendEventAux, e0, e1, e2]
      | netErr =>
        cases e2 : oracle 2 with
        | success => exact absurd e2 (h 2)
        | failStatus => simp [goSendEvent, goSendEventAux, e0, e1, e2]
        | netErr => simp [goSendEvent, goSendEventAux, e0, e1, e2]
  refine ⟨hsend, ?_⟩
  simp [goFlushBatch, hsend]

/-- Witness for C6 at d = 7 with a constantly failing collector. -/
theorem retry_exhaustion_witness :
    goSendEvent 2 7 (fun _ => .failStatus) = ([0, 7, 14], false) ∧
    goFlushBatch 2 7 (fun _ => fun _ => .failStatus) ["e"] =
      { delivered := [("e", false)], warnings := 1, requeued := [] } :=
  retry_exhaustion 7 (fun _ => .failStatus) "e" (fun n => by simp)

/-- C7 (code bug): `flush` polls `while (isProcessing && queue.length > 0)`,
so in the reachable state where the only queued item has been shifted into
flight (queue empty, worker busy) flush returns immediately although that
item has not completed its delivery attempt -- contradicting the doc comment
of `flush` ("Wait for all pending requests to complete"). -/
theorem flush_returns_with_inflight :
    rqFlushReturnsNow
      (rqEnqueue { queue := [], isProcessing := false, inflight := none,
                   completed := [] } "e1") = true ∧
    (rqEnqueue { queue := [], isProcessing := false, inflight := none,
                 completed := [] } "e1").inflight = some "e1" ∧
    (rqEnqueue { queue := [], isProcessing := false, inflight := none,
                 completed := [] } "e1").completed = [] := by
  decide

/-- C8 counterexample: the MCP tool-call interception path records the
arguments unfiltered -- an intercepted call whose arguments carry org_id has
that key in the recorded event data. -/
theorem toolCallHandler_args_unfiltered :
    wrapRecorded (wrapToolCallHandlerRun (fun _ => .ok (.obj [("content", .arr [])]))
        (.obj [("params", .obj [("name", .str "t"),
          ("arguments", .obj [("org_id", .str "secret"), ("q", .num 1)])])])) =
      some { primitiveType := "tool", primitiveName := "t",
             args := .obj [("org_id", .str "secret"), ("q", .num 1)],
             success := true, analyticsResult := .obj [("content", .arr [])] } ∧
    hasKey (.obj [("org_id", .str "secret"), ("q", .num 1)]) "org_id" = true :=
  ⟨rfl, rfl⟩

/-- C8 (amended): only the generic wrap/createWrapper path filters: it
records `filterSensitiveArgs args`, whose output never carries an org_id or
orgId key on any element, for all argument values. -/
theorem createWrapper_strips_org (primitiveType primitiveName : String)
    (args : List JsValue) (outcome : HandlerOutcome) :
    (∃ ev, wrapRecorded (createWrapperRun primitiveType primitiveName args outcome)
        = some ev ∧ ev.args = .arr (filterSensitiveArgs args)) ∧
    (filterSensitiveArgs args).all
      (fun v => !hasKey v "org_id" && !hasKey v "orgId") = true := by
  refine ⟨?_, filterSensitiveArgs_no_org_keys args⟩
  cases outcome with
  | ok r => exact ⟨_, rfl, rfl⟩
  | thrown e => exact ⟨_, rfl, rfl⟩

/-- C9 (confirmed): whatever the identify function does, the identity the
session manager produces is null or carries a truthy (for a string: a
non-empty) userId; a valid cache stays valid; and an exception from the
function is downgraded to a null identity with a warning -- the embedding is
a total function, so no failure propagates. -/
theorem identifyUser_safe (hasFn : Bool) (cached : Option JsValue)
    (outcome : IdentifyOutcome) (h : cachedUserValid cached = true) :
    identityValid (identifyUser hasFn cached outcome).identity = true ∧
    cachedUserValid (identifyUser hasFn cached outcome).cachedUser = true ∧
    (∀ e, hasFn = true → cached = none → outcome = .throws e →
      identifyUser hasFn cached outcome =
        { identity := .null, cachedUser := some .null, warned := true }) := by
  cases hasFn with
  | false =>
    exact ⟨rfl, h, fun e hf => absurd hf (by decide)⟩
  | true =>
    cases cached with
    | some c =>
      exact ⟨h, h, fun e _ hc => absurd hc (by simp)⟩
    | none =>
      cases outcome with
      | throws e0 =>
        exact ⟨rfl, rfl, fun e _ _ _ => rfl⟩
      | returns v =>
        have hred : identifyUser true none (.returns v) =
            if truthy v && !truthy (getField v "userId")
            then { identity := .null, cachedUser := some .null, warned := true }
            else { identity := v, cachedUser := some v, warned := false } := rfl
        have hnull : identityValid JsValue.null = true := rfl
        have hv : identityValid v = (!truthy v || truthy (getField v "userId")) := rfl
        have hcnull : cachedUserValid (some JsValue.null) = true := rfl
        have hcv : cachedUserValid (some v) = identityValid v := rfl
        refine ⟨?_, ?_, fun e _ _ h3 => by cases h3⟩
        · rw [hred]
          cases h1 : truthy v <;> cases h2 : truthy (getField v "userId") <;>
            simp [h1, h2, hnull, hv]
        · rw [hred]
          cases h1 : truthy v <;> cases h2 : truthy (getField v "userId") <;>
            simp [h1, h2, hcnull, hcv, hv]

/-- Witness for C9 at an identify function returning an object without a
userId field: the identity is downgraded to null with a warning. -/
theorem identifyUser_safe_witness :
    identityValid (identifyUser true none
      (.returns (.obj [("name", .str "x")]))).identity = true ∧
    cachedUserValid (identifyUser true none
      (.returns (.obj [("name", .str "x")]))).cachedUser = true ∧
    (∀ e, true = true → (none : Option JsValue) = none →
      IdentifyOutcome.returns (.obj [("name", .str "x")]) = .throws e →
      identifyUser true none (.returns (.obj [("name", .str "x")])) =
        { identity := .null, cachedUser := some .null, warned := true }) :=
  identifyUser_safe true none (.returns (.obj [("name", .str "x")])) rfl

/-- C10 counterexample: after a first trackMcp whose immediate override
failed (initialize succeeded, override still pending), a second trackMcp
with a different server wraps that new server, even though the stored server
is still the first one. -/
theorem second_trackMcp_wraps_new_server :
    (tsTrackMcp clientInit 1
      (⟨false, [], true, false, false⟩ : ServerM) "org" "http").1.initialized = true ∧
    (tsTrackMcp
      (tsTrackMcp clientInit 1 (⟨false, [], true, false, false⟩ : ServerM) "org" "http").1
      2 (⟨true, [("tools/call", false)], false, false, false⟩ : ServerM)
      "o2" "e2").2.handlers = [("tools/call", true)] ∧
    (tsTrackMcp
      (tsTrackMcp clientInit 1 (⟨false, [], true, false, false⟩ : ServerM) "org" "http").1
      2 (⟨true, [("tools/call", false)], false, false, false⟩ : ServerM)
      "o2" "e2").1.serverId = some 1 := by
  decide

/-- C10 (amended): once initialize has succeeded, a further initialize call
returns success immediately, without validating its arguments, and changes
nothing; and provided the handler override has already been applied, a
further trackMcp call leaves both the client state and the server it is
passed unchanged -- the different server is not wrapped.  While the override
is still pending, a second trackMcp may wrap the server passed to it. -/
theorem initialized_client_frame (st : ClientState) (sid : Nat) (sv : ServerM)
    (orgId endpoint : String) (hInit : st.initialized = true) :
    tsInitClient st sid orgId endpoint = (true, st) ∧
    (st.overrideApplied = true →
      tsTrackMcp st sid sv orgId endpoint = (st, sv)) := by
  constructor
  · simp [tsInitClient, hInit]
  · intro hov
    simp [tsTrackMcp, tsInitClient, hInit, tsOverrideMcpServer, hov]

/-- Witness for C10 amended at a concrete initialized state with the
override applied. -/
theorem initialized_client_frame_witness :
    tsInitClient (⟨true, true, some 1, "o", "e"⟩ : ClientState) 2 "" "" =
      (true, (⟨true, true, some 1, "o", "e"⟩ : ClientState)) ∧
    ((⟨true, true, some 1, "o", "e"⟩ : ClientState).overrideApplied = true →
      tsTrackMcp (⟨true, true, some 1, "o", "e"⟩ : ClientState) 2
        (⟨true, [("tools/call", false)], false, false, false⟩ : ServerM) "" "" =
        ((⟨true, true, some 1, "o", "e"⟩ : ClientState),
         (⟨true, [("tools/call", false)], false, false, false⟩ : ServerM))) :=
  initialized_client_frame (⟨true, true, some 1, "o", "e"⟩ : ClientState) 2
    (⟨true, [("tools/call", false)], false, false, false⟩ : ServerM) "" "" rfl

end Agnost
